import Mathlib

/-!
Shallow embedding of the coffee-scale controller (src/Program/main/main.ino).

Floats are modelled as rationals (exact arithmetic); the millisecond clock
is modelled as a natural number. The per-tick control flow of `loop()` is
split into the sub-steps the source performs in order: tare/reset, sample
read, adaptive EMA, hysteresis gate, zero clamp, quantizer, flow-stop
evaluation, previous-weight update, timer start, elapsed-time update.
Unsigned 32-bit clock wraparound (after ~49 days) is out of the claims'
scope and is modelled with truncated natural subtraction.
-/

namespace Scale

/-- Tuning knob `emaBig = 0.4` (line 43). -/
def emaBig : ℚ := 0.4

/-- Tuning knob `emaMed = 0.7` (line 44). -/
def emaMed : ℚ := 0.7

/-- Tuning knob `emaSma = 0.95` (line 45). -/
def emaSma : ℚ := 0.95

/-- Tuning knob `threshold = 0.08` (line 46), hysteresis band. -/
def threshold : ℚ := 0.08

/-- Tuning knob `zClampPos = 0.2` (line 48). -/
def zClampPos : ℚ := 0.2

/-- Tuning knob `zClampNeg = 0.3` (line 49). -/
def zClampNeg : ℚ := 0.3

/-- Tuning knob `timerStartG = 2.0` (line 50). -/
def timerStartG : ℚ := 2.0

/-- Tuning knob `minFlowT = 800` ms (line 51). -/
def minFlowT : ℕ := 800

/-- Tuning knob `minFlowG = 0.2` (line 52). -/
def minFlowG : ℚ := 0.2

/-- C `roundf`: round to nearest integer, halves away from zero. -/
def roundf (q : ℚ) : ℤ := if 0 ≤ q then ⌊q + 1/2⌋ else -⌊-q + 1/2⌋

/-- `quantize` (lines 236-238): `roundf(g * 10.0f) / 10.0f`. -/
def quantize (g : ℚ) : ℚ := (roundf (g * 10) : ℚ) / 10

/-- `hysteresis` (lines 241-247). The C function keeps `shown_g` as a
function-local static; here the state is passed explicitly and the result
is `(returned value, new shown_g)`. -/
def hysteresis (shown_g read_g : ℚ) : ℚ × ℚ :=
  if |read_g - shown_g| ≥ threshold then (read_g, read_g) else (shown_g, shown_g)

/-- `varZeroClamp` (lines 250-255). -/
def varZeroClamp (g : ℚ) : ℚ :=
  if g < 0 ∧ |g| < zClampNeg then 0
  else if g > 0 ∧ |g| < zClampPos then 0
  else g

/-- Adaptive EMA block of `loop()` (lines 149-161), as a function of the
persistent output `gFilt` and the raw reading `grams`. -/
def adaptiveEMA (gFilt grams : ℚ) : ℚ :=
  let err := |grams - gFilt|
  if err > 1 then grams
  else
    let ema := if err > 0.3 then emaBig else if err > 0.1 then emaMed else emaSma
    ema * gFilt + (1 - ema) * grams

/-- The persistent state of `loop()`: its `static` locals, the globals
`tStart` and `flowStopTimer`, and the `static shown_g` of `hysteresis`. -/
structure ScaleState where
  gFilt : ℚ
  prevGFilt : ℚ
  running : Bool
  time : ℚ
  startOnce : Bool
  flowStopTimer : ℕ
  tStart : ℕ
  shown_g : ℚ
  deriving Repr, DecidableEq

/-- The external inputs consumed by one iteration of `loop()`: whether the
zero button is held (debounce-confirmed), whether `scale.is_ready()`, the
values `scale.get_value(1)` and `scale.get_units(sma)` would return, and
the `millis()` clock. -/
structure TickInput where
  tare : Bool
  ready : Bool
  rawReading : ℤ
  gramsReading : ℚ
  now : ℕ
  deriving Repr, DecidableEq

/-- Tare/reset block (lines 122-139): `gFilt = 0; running = false;
time = 0; flowStopTimer = 0; startOnce = true;`. -/
def tareReset (s : ScaleState) : ScaleState :=
  { s with gFilt := 0, running := false, time := 0,
           flowStopTimer := 0, startOnce := true }

/-- The `grams` value used by the tick (lines 112, 141-144): the local is
initialized to `0.0f` and only assigned when the scale is ready. -/
def tickGrams (i : TickInput) : ℚ := if i.ready then i.gramsReading else 0

/-- The `val` value used by the tick (lines 111, 141-144): the local is
initialized to `0` and only assigned when the scale is ready. -/
def tickVal (i : TickInput) : ℤ := if i.ready then i.rawReading else 0

/-- Flow-stop evaluation (lines 167-181), run on the post-pipeline
`gFilt`. -/
def flowStopStep (s : ScaleState) (now : ℕ) : ScaleState :=
  if s.running then
    let deltaG := s.gFilt - s.prevGFilt
    if deltaG < minFlowG then
      if s.flowStopTimer = 0 then { s with flowStopTimer := now }
      else if now - s.flowStopTimer > minFlowT then
        { s with running := false, startOnce := false, flowStopTimer := 0 }
      else s
    else { s with flowStopTimer := 0 }
  else s

/-- Timer start check (lines 186-190). -/
def timerStartStep (s : ScaleState) (now : ℕ) : ScaleState :=
  if s.gFilt > timerStartG ∧ s.running = false then
    { s with running := true, tStart := now, flowStopTimer := 0 }
  else s

/-- Elapsed-time update (lines 192-194): `time = (millis() - tStart)/1000.0f`. -/
def timeUpdateStep (s : ScaleState) (now : ℕ) : ScaleState :=
  if s.running ∧ s.startOnce then { s with time := ((now - s.tStart : ℕ) : ℚ) / 1000 }
  else s

/-- One full iteration of `loop()` (lines 109-222), with the sub-steps in
source order. All `millis()` calls of one iteration are modelled as the
single value `i.now`. -/
def tick (s0 : ScaleState) (i : TickInput) : ScaleState :=
  let s1 := if i.tare then tareReset s0 else s0
  let grams := tickGrams i
  let g2 := adaptiveEMA s1.gFilt grams
  let p3 := hysteresis s1.shown_g g2
  let g4 := varZeroClamp p3.1
  let g5 := quantize g4
  let s2 := { s1 with gFilt := g5, shown_g := p3.2 }
  let s3 := flowStopStep s2 i.now
  let s4 := { s3 with prevGFilt := s3.gFilt }
  let s5 := timerStartStep s4 i.now
  timeUpdateStep s5 i.now

end Scale

namespace Scale

/-- C7: the zero clamp is pure and maps `(-0.3, 0]` and `[0, 0.2)` to
exactly 0, and leaves `g ≤ -0.3` and `g ≥ 0.2` unchanged. -/
theorem varZeroClamp_spec (g : ℚ) :
    (-0.3 < g ∧ g ≤ 0 → varZeroClamp g = 0) ∧
    (0 ≤ g ∧ g < 0.2 → varZeroClamp g = 0) ∧
    (g ≤ -0.3 ∨ g ≥ 0.2 → varZeroClamp g = g) := by
  unfold varZeroClamp zClampNeg zClampPos
  refine ⟨?_, ?_, ?_⟩
  · rintro ⟨h1, h2⟩
    rcases lt_or_eq_of_le h2 with h2' | h2'
    · rw [if_pos ⟨h2', by rw [abs_of_neg h2']; linarith⟩]
    · subst h2'
      norm_num
  · rintro ⟨h1, h2⟩
    rcases lt_or_eq_of_le h1 with h1' | h1'
    · rw [if_neg (by push_neg; intro hc; exact absurd hc (not_lt.mpr (le_of_lt h1'))),
          if_pos ⟨h1', by rw [abs_of_pos h1']; linarith⟩]
    · rw [← h1']
      norm_num
  · rintro (h | h)
    · rw [if_neg (by push_neg; intro hc; rw [abs_of_neg hc]; linarith),
          if_neg (by push_neg; intro hc; linarith)]
    · rw [if_neg (by push_neg; intro hc; linarith),
          if_neg (by push_neg; intro hc; rw [abs_of_pos hc]; linarith)]

/-- C7 witness: the clamp evaluated at points of each band. -/
theorem varZeroClamp_spec_witness :
    varZeroClamp (-0.2) = 0 ∧ varZeroClamp 0.1 = 0 ∧ varZeroClamp 0.5 = 0.5 := by
  refine ⟨(varZeroClamp_spec (-0.2)).1 (by norm_num),
          (varZeroClamp_spec 0.1).2.1 (by norm_num),
          (varZeroClamp_spec 0.5).2.2 (by norm_num)⟩

/-- C6: the hysteresis gate retains the last emitted value when the input
moved less than 0.08 from it, and otherwise adopts the input as both the
output and the new retained value. -/
theorem hysteresis_spec (shown v : ℚ) :
    (|v - shown| < 0.08 → hysteresis shown v = (shown, shown)) ∧
    (|v - shown| ≥ 0.08 → hysteresis shown v = (v, v)) := by
  unfold hysteresis threshold
  constructor
  · intro h
    rw [if_neg (not_le.mpr h)]
  · intro h
    rw [if_pos h]

/-- C6 witness: the gate evaluated below and at the threshold. -/
theorem hysteresis_spec_witness :
    hysteresis 1 1.05 = (1, 1) ∧ hysteresis 1 1.08 = (1.08, 1.08) := by
  exact ⟨(hysteresis_spec 1 1.05).1 (by norm_num [abs_of_pos]),
         (hysteresis_spec 1 1.08).2 (by norm_num [abs_of_pos])⟩

/-- C1: the adaptive filter snaps to the raw reading on a jump larger than
1.0, and otherwise blends with the band coefficient 0.4 / 0.7 / 0.95. -/
theorem adaptiveEMA_spec (p r : ℚ) :
    (1 < |r - p| → adaptiveEMA p r = r) ∧
    (|r - p| ≤ 1 →
      ((0.3 < |r - p| → adaptiveEMA p r = 0.4 * p + (1 - 0.4) * r) ∧
       (0.1 < |r - p| ∧ |r - p| ≤ 0.3 → adaptiveEMA p r = 0.7 * p + (1 - 0.7) * r) ∧
       (|r - p| ≤ 0.1 → adaptiveEMA p r = 0.95 * p + (1 - 0.95) * r))) := by
  simp only [adaptiveEMA, emaBig, emaMed, emaSma]
  constructor
  · intro h
    rw [if_pos h]
  · intro h
    rw [if_neg (not_lt.mpr h)]
    refine ⟨fun h3 => ?_, fun h7 => ?_, fun h95 => ?_⟩
    · rw [if_pos h3]
    · rw [if_neg (not_lt.mpr h7.2), if_pos h7.1]
    · rw [if_neg (by linarith : ¬ (0.3:ℚ) < |r - p|),
          if_neg (not_lt.mpr h95)]

/-- C1 witness: the filter evaluated in each regime. -/
theorem adaptiveEMA_spec_witness :
    adaptiveEMA 0 2 = 2 ∧
    adaptiveEMA 1 1.5 = 0.4 * 1 + (1 - 0.4) * 1.5 ∧
    adaptiveEMA 1 1.2 = 0.7 * 1 + (1 - 0.7) * 1.2 ∧
    adaptiveEMA 1 1.05 = 0.95 * 1 + (1 - 0.95) * 1.05 := by
  refine ⟨(adaptiveEMA_spec 0 2).1 (by norm_num),
          ((adaptiveEMA_spec 1 1.5).2 (by norm_num [abs_of_pos])).1 (by norm_num [abs_of_pos]),
          ((adaptiveEMA_spec 1 1.2).2 (by norm_num [abs_of_pos])).2.1 (by norm_num [abs_of_pos]),
          ((adaptiveEMA_spec 1 1.05).2 (by norm_num [abs_of_pos])).2.2 (by norm_num [abs_of_pos])⟩

/-- `roundf` is the identity on integers. -/
theorem roundf_intCast (k : ℤ) : roundf (k : ℚ) = k := by
  unfold roundf
  split_ifs with h
  · rw [show ((k:ℚ) + 1/2) = 1/2 + (k:ℚ) by ring, Int.floor_add_int]
    norm_num
  · rw [show (-(k:ℚ) + 1/2) = 1/2 + ((-k : ℤ) : ℚ) by push_cast; ring, Int.floor_add_int]
    norm_num

/-- `roundf` lands within a half unit of its argument. -/
theorem roundf_near (q : ℚ) : |(roundf q : ℚ) - q| ≤ 1/2 := by
  unfold roundf
  split_ifs with h
  · rw [abs_le]
    constructor
    · have := Int.lt_floor_add_one (q + 1/2)
      linarith
    · have := Int.floor_le (q + 1/2)
      linarith
  · rw [abs_le]
    constructor
    · have := Int.floor_le (-q + 1/2)
      push_cast
      linarith
    · have := Int.lt_floor_add_one (-q + 1/2)
      push_cast
      linarith

/-- C8: the quantizer is idempotent, always yields an exact multiple of
0.1, lands within half a display unit of its input, and rounds halves
away from zero on both sides. -/
theorem quantize_spec (x : ℚ) :
    quantize (quantize x) = quantize x ∧
    (∃ k : ℤ, quantize x = (k : ℚ) / 10) ∧
    |quantize x - x| ≤ 1/20 ∧
    (∀ n : ℕ, quantize ((n : ℚ)/10 + 1/20) = ((n : ℚ) + 1)/10 ∧
              quantize (-((n : ℚ)/10 + 1/20)) = -(((n : ℚ) + 1)/10)) := by
  refine ⟨?_, ⟨roundf (x * 10), rfl⟩, ?_, ?_⟩
  · show quantize ((roundf (x * 10) : ℚ) / 10) = quantize x
    unfold quantize
    rw [div_mul_cancel₀ _ (by norm_num : (10:ℚ) ≠ 0), roundf_intCast]
  · have h := roundf_near (x * 10)
    unfold quantize
    rw [show (roundf (x*10) : ℚ)/10 - x = ((roundf (x*10) : ℚ) - x*10)/10 by ring,
        abs_div, show |(10:ℚ)| = 10 by norm_num]
    linarith
  · intro n
    have hpos : (0:ℚ) < (n:ℚ) + 1/2 := by positivity
    constructor
    · unfold quantize roundf
      rw [show ((n:ℚ)/10 + 1/20) * 10 = (n:ℚ) + 1/2 by ring,
          if_pos (by linarith : (0:ℚ) ≤ (n:ℚ) + 1/2),
          show (n:ℚ) + 1/2 + 1/2 = ((n + 1 : ℤ) : ℚ) by push_cast; ring,
          Int.floor_intCast]
      push_cast
      ring
    · unfold quantize roundf
      rw [show (-((n:ℚ)/10 + 1/20)) * 10 = -((n:ℚ) + 1/2) by ring,
          if_neg (by linarith : ¬ (0:ℚ) ≤ -((n:ℚ) + 1/2)), neg_neg,
          show (n:ℚ) + 1/2 + 1/2 = ((n + 1 : ℤ) : ℚ) by push_cast; ring,
          Int.floor_intCast]
      push_cast
      ring

/-- C4: a tare/reset event forces Idle, re-arms the latch, zeroes the
elapsed time, clears the flow-stop timer, and zeroes the filter output,
for every pre-event state. -/
theorem tareReset_spec (s : ScaleState) :
    (tareReset s).running = false ∧ (tareReset s).startOnce = true ∧
    (tareReset s).time = 0 ∧ (tareReset s).flowStopTimer = 0 ∧
    (tareReset s).gFilt = 0 :=
  ⟨rfl, rfl, rfl, rfl, rfl⟩

/-- C9: a tare/reset event leaves the hysteresis gate's retained value
`shown_g` unchanged, for every pre-event state. -/
theorem tareReset_shown_g (s : ScaleState) :
    (tareReset s).shown_g = s.shown_g := rfl

/-- C3: from Idle, a stable weight above 2.0 starts the timer, records the
start time and clears the flow-stop tracking; while Running with the latch
set, the elapsed time is recomputed from the clock as `(now - tStart)/1000`
seconds. -/
theorem timerStart_spec (s : ScaleState) (now : ℕ) :
    (s.running = false → s.gFilt > timerStartG →
       timerStartStep s now =
         { s with running := true, tStart := now, flowStopTimer := 0 }) ∧
    (s.running = true → s.startOnce = true →
       (timeUpdateStep s now).time = ((now - s.tStart : ℕ) : ℚ) / 1000) := by
  constructor
  · intro hidle hg
    unfold timerStartStep
    rw [if_pos ⟨hg, hidle⟩]
  · intro hrun honce
    unfold timeUpdateStep
    rw [if_pos ⟨hrun, honce⟩]

/-- C3 witness: timer start and elapsed-time recomputation at concrete
states. -/
theorem timerStart_spec_witness :
    timerStartStep ⟨2.5, 0, false, 0, true, 7, 0, 2.5⟩ 1000 =
      ⟨2.5, 0, true, 0, true, 0, 1000, 2.5⟩ ∧
    (timeUpdateStep ⟨2.5, 2.5, true, 0, true, 0, 1000, 2.5⟩ 3500).time = 2.5 := by
  constructor
  · exact (timerStart_spec ⟨2.5, 0, false, 0, true, 7, 0, 2.5⟩ 1000).1 rfl
      (by norm_num [timerStartG])
  · rw [(timerStart_spec ⟨2.5, 2.5, true, 0, true, 0, 1000, 2.5⟩ 3500).2 rfl rfl]
    norm_num

/-- C2 (amended): while Running, a stable-weight delta below 0.2 —
including every negative delta — starts the flow-stop tracking when it is
not yet started (capturing the clock) and, once the captured timestamp is
strictly more than 800 ms old, transitions to Idle, clears the fired
latch, and clears the flow-stop timer; at exactly 800 ms or less the state
is unchanged; a delta at or above 0.2 resets the tracking to
not-started. -/
theorem flowStopStep_spec (s : ScaleState) (now : ℕ) (hrun : s.running = true) :
    (s.gFilt - s.prevGFilt < minFlowG →
      ((s.flowStopTimer = 0 → flowStopStep s now = { s with flowStopTimer := now }) ∧
       (s.flowStopTimer ≠ 0 → now - s.flowStopTimer > minFlowT →
          flowStopStep s now =
            { s with running := false, startOnce := false, flowStopTimer := 0 }) ∧
       (s.flowStopTimer ≠ 0 → now - s.flowStopTimer ≤ minFlowT →
          flowStopStep s now = s))) ∧
    (s.gFilt - s.prevGFilt < 0 → s.gFilt - s.prevGFilt < minFlowG) ∧
    (¬ s.gFilt - s.prevGFilt < minFlowG →
       flowStopStep s now = { s with flowStopTimer := 0 }) := by
  unfold flowStopStep
  rw [hrun]
  simp only [if_true]
  refine ⟨fun hd => ⟨fun h0 => ?_, fun h0 ht => ?_, fun h0 ht => ?_⟩,
          fun hneg => ?_, fun hd => ?_⟩
  · rw [if_pos hd, if_pos h0]
  · rw [if_pos hd, if_neg h0, if_pos ht]
  · rw [if_pos hd, if_neg h0, if_neg (not_lt.mpr ht)]
  · unfold minFlowG
    norm_num
    linarith
  · rw [if_neg hd]

/-- C2 witness: the stop transition fires at 801 ms of sustained stall. -/
theorem flowStopStep_spec_witness :
    flowStopStep ⟨0, 0, true, 0, true, 1000, 0, 0⟩ 1801 =
      ⟨0, 0, false, 0, false, 0, 0, 0⟩ := by
  exact ((flowStopStep_spec ⟨0, 0, true, 0, true, 1000, 0, 0⟩ 1801 rfl).1
    (by norm_num [minFlowG])).2.1 (by norm_num) (by norm_num [minFlowT])

/-- C2 counterexample: with the stall begun at clock 1000 and the clock
now at 1800 — a sustained stall span of exactly 800 ms — the code keeps
the timer Running, though the claim's `>= 800 ms` bound says it stops. -/
theorem flowStopStep_ge_counterexample :
    (0:ℚ) - 0 < minFlowG ∧ (1000:ℕ) ≠ 0 ∧ 1800 - 1000 ≥ minFlowT ∧
    (flowStopStep ⟨0, 0, true, 0, true, 1000, 0, 0⟩ 1800).running = true := by
  refine ⟨by norm_num [minFlowG], by norm_num, by norm_num [minFlowT], ?_⟩
  norm_num [flowStopStep, minFlowG, minFlowT]

/-- The flow-stop evaluation never changes `gFilt`. -/
theorem flowStopStep_gFilt (s : ScaleState) (now : ℕ) :
    (flowStopStep s now).gFilt = s.gFilt := by
  simp only [flowStopStep]
  split_ifs <;> rfl

/-- The timer start check never changes `gFilt`. -/
theorem timerStartStep_gFilt (s : ScaleState) (now : ℕ) :
    (timerStartStep s now).gFilt = s.gFilt := by
  unfold timerStartStep
  split_ifs <;> rfl

/-- The elapsed-time update never changes `gFilt`. -/
theorem timeUpdateStep_gFilt (s : ScaleState) (now : ℕ) :
    (timeUpdateStep s now).gFilt = s.gFilt := by
  unfold timeUpdateStep
  split_ifs <;> rfl

/-- The hysteresis gate update never changes `gFilt` or `shown_g` of the
later steps: end-of-tick `gFilt` on a non-tare tick is exactly the
post-hysteresis, post-clamp, post-quantize pipeline value. -/
theorem tick_gFilt (s : ScaleState) (i : TickInput) (hi : i.tare = false) :
    (tick s i).gFilt =
      quantize (varZeroClamp
        ((hysteresis s.shown_g (adaptiveEMA s.gFilt (tickGrams i))).1)) := by
  unfold tick
  rw [hi]
  simp only [Bool.false_eq_true, if_false, timeUpdateStep_gFilt, timerStartStep_gFilt,
             flowStopStep_gFilt]

/-- C10: at the end of every non-tare tick the adaptive filter's
persistent state `gFilt` equals the final post-hysteresis, post-clamp,
post-quantize stable weight; consequently the next non-tare tick's filter
blends against that quantized displayed value, not the previous raw EMA
output. -/
theorem gFilt_pipeline_spec (s : ScaleState) (i j : TickInput)
    (hi : i.tare = false) (hj : j.tare = false) :
    (tick s i).gFilt =
      quantize (varZeroClamp
        ((hysteresis s.shown_g (adaptiveEMA s.gFilt (tickGrams i))).1)) ∧
    (tick (tick s i) j).gFilt =
      quantize (varZeroClamp
        ((hysteresis (tick s i).shown_g
          (adaptiveEMA
            (quantize (varZeroClamp
              ((hysteresis s.shown_g (adaptiveEMA s.gFilt (tickGrams i))).1)))
            (tickGrams j))).1)) := by
  refine ⟨tick_gFilt s i hi, ?_⟩
  rw [← tick_gFilt s i hi]
  exact tick_gFilt (tick s i) j hj

/-- C10 witness: the pipeline invariant at a concrete two-tick trace. -/
theorem gFilt_pipeline_spec_witness :
    (tick ⟨0, 0, false, 0, true, 0, 0, 0⟩ ⟨false, true, 3670, 5, 100⟩).gFilt =
      quantize (varZeroClamp
        ((hysteresis 0 (adaptiveEMA 0 (tickGrams ⟨false, true, 3670, 5, 100⟩))).1)) :=
  (gFilt_pipeline_spec ⟨0, 0, false, 0, true, 0, 0, 0⟩
    ⟨false, true, 3670, 5, 100⟩ ⟨false, false, 3670, 5, 130⟩ rfl rfl).1

/-- C5 (amended): on a tick where the scale is not ready, the raw and
units values used are the per-tick local defaults 0 and 0.0 — the locals
are re-initialized every iteration, so the previous successful read is not
retained — and the tick behaves exactly like a ready tick that read 0. -/
theorem notReady_defaults (s : ScaleState) (i : TickInput) (h : i.ready = false) :
    tickGrams i = 0 ∧ tickVal i = 0 ∧
    tick s i = tick s ⟨i.tare, true, 0, 0, i.now⟩ := by
  refine ⟨by simp [tickGrams, h], by simp [tickVal, h], ?_⟩
  unfold tick
  simp [tickGrams, h]

/-- C5 witness: a concrete not-ready tick equals the ready-with-zero
tick. -/
theorem notReady_defaults_witness :
    tickGrams ⟨false, false, 3670, 5, 130⟩ = 0 ∧
    tickVal ⟨false, false, 3670, 5, 130⟩ = 0 ∧
    tick ⟨5, 5, true, 0, true, 0, 100, 5⟩ ⟨false, false, 3670, 5, 130⟩ =
      tick ⟨5, 5, true, 0, true, 0, 100, 5⟩ ⟨false, true, 0, 0, 130⟩ :=
  notReady_defaults ⟨5, 5, true, 0, true, 0, 100, 5⟩ ⟨false, false, 3670, 5, 130⟩ rfl

/-- C5 counterexample: after a ready tick reads 5 g (stable weight 5), a
not-ready tick feeds the default 0 — not the stale 5 — into the pipeline,
and the stable weight snaps to 0. -/
theorem staleValues_counterexample :
    tickGrams ⟨false, true, 3670, 5, 100⟩ = 5 ∧
    (tick ⟨0, 0, false, 0, true, 0, 0, 0⟩ ⟨false, true, 3670, 5, 100⟩).gFilt = 5 ∧
    tickGrams ⟨false, false, 3670, 5, 130⟩ = 0 ∧
    tickVal ⟨false, false, 3670, 5, 130⟩ = 0 ∧
    (tick (tick ⟨0, 0, false, 0, true, 0, 0, 0⟩ ⟨false, true, 3670, 5, 100⟩)
          ⟨false, false, 3670, 5, 130⟩).gFilt = 0 := by
  have e1 : tick ⟨0, 0, false, 0, true, 0, 0, 0⟩ ⟨false, true, 3670, 5, 100⟩ =
      ⟨5, 5, true, 0, true, 0, 100, 5⟩ := by
    norm_num [tick, tickGrams, tareReset, adaptiveEMA, hysteresis, varZeroClamp,
              quantize, roundf, flowStopStep, timerStartStep, timeUpdateStep,
              emaBig, emaMed, emaSma, threshold, zClampPos, zClampNeg, timerStartG,
              minFlowT, minFlowG, abs_of_nonneg, abs_of_nonpos, Int.floor_eq_iff]
  have e2 : tick ⟨5, 5, true, 0, true, 0, 100, 5⟩ ⟨false, false, 3670, 5, 130⟩ =
      ⟨0, 0, true, 0.03, true, 130, 100, 0⟩ := by
    norm_num [tick, tickGrams, tareReset, adaptiveEMA, hysteresis, varZeroClamp,
              quantize, roundf, flowStopStep, timerStartStep, timeUpdateStep,
              emaBig, emaMed, emaSma, threshold, zClampPos, zClampNeg, timerStartG,
              minFlowT, minFlowG, abs_of_nonneg, abs_of_nonpos, Int.floor_eq_iff]
  refine ⟨rfl, by rw [e1], rfl, rfl, by rw [e1, e2]⟩

end Scale
